import Mathlib

/-!
Verification development for the azureOCR backend (src/server.js).

Each definition below is a shallow embedding of a function of the source
file.  Strings processed by the sentence splitter are modelled as
`List Char`; JSON documents returned by the remote analysis service are
modelled by the inductive `JsonVal`; fallible JavaScript code (property
access on `null`, method calls on values that lack the method) is
modelled with `Except Unit`.
-/

namespace AzureOCR

/-! ## Sentence splitter (src/server.js, splitIntoSentences, lines 62-80) -/

/-- Whitespace class of the JavaScript regular-expression escape `\s`,
restricted to the ASCII whitespace characters (the inputs of interest
contain no exotic Unicode whitespace). -/
def isJsWS (c : Char) : Bool :=
  c = ' ' || c = '\t' || c = '\n' || c = '\r' || c = '\x0b' || c = '\x0c'

/-- Sentence-terminal punctuation, the character class `[.?!]`. -/
def isPunct (c : Char) : Bool :=
  c = '.' || c = '?' || c = '!'

/-- Auxiliary scanner for `collapseWS`; `inRun` records whether the
previously consumed character was whitespace (in which case further
whitespace is dropped rather than emitted). -/
def collapseWSAux : Bool → List Char → List Char
  | _, [] => []
  | inRun, c :: rest =>
    if isJsWS c then
      if inRun then collapseWSAux true rest
      else ' ' :: collapseWSAux true rest
    else c :: collapseWSAux false rest

/-- Composite of the three replacements
`.replace(/\r\n/g, " ").replace(/\n/g, " ").replace(/\s+/g, " ")` of the
source: the first two turn whitespace characters into spaces (so maximal
whitespace runs are preserved as runs), and the third replaces every
maximal run of whitespace by a single space. -/
def collapseWS (l : List Char) : List Char :=
  collapseWSAux false l

/-- JavaScript `String.prototype.trim()` on a character list: strip
leading and trailing whitespace. -/
def trimL (l : List Char) : List Char :=
  ((l.dropWhile isJsWS).reverse.dropWhile isJsWS).reverse

/-- JavaScript `text.split(/([.?!])\s+/g)`: the separator is a
sentence-terminal punctuation character followed by a maximal nonempty
whitespace run; because the punctuation is a capture group, it is spliced
into the result list between the surrounding pieces.  `skip` is true
while the whitespace part of a separator is being consumed, `cur` is the
current piece accumulated in reverse. -/
def splitAux : Bool → List Char → List Char → List (List Char)
  | _, [], cur => [cur.reverse]
  | skip, c :: rest, cur =>
    if skip && isJsWS c then splitAux true rest cur
    else if isPunct c then
      match rest with
      | [] => [(c :: cur).reverse]
      | d :: _ =>
        if isJsWS d then cur.reverse :: [c] :: splitAux true rest []
        else splitAux false rest (c :: cur)
    else splitAux false rest (c :: cur)

/-- Body of the `reduce` of the source: a chunk that contains punctuation
anywhere (the test `/[.?!]/.test(chunk)` is not anchored) is appended to
the previous sentence when one exists; otherwise a chunk with nonempty
trim is pushed as a new sentence; other chunks are dropped. -/
def reduceStep (acc : List (List Char)) (chunk : List Char) : List (List Char) :=
  if chunk.any isPunct && !acc.isEmpty then
    acc.dropLast ++ [acc.getLastD [] ++ chunk]
  else if !(trimL chunk).isEmpty then
    acc ++ [trimL chunk]
  else acc

/-- Embedding of `splitIntoSentences` (src/server.js lines 62-80):
normalize whitespace, trim, split on punctuation-plus-whitespace keeping
the punctuation, re-attach punctuation chunks by the `reduce`, trim each
sentence and drop empty ones.  The guard `if (!text) return []` is the
empty-string case. -/
def splitIntoSentences (text : List Char) : List (List Char) :=
  if text.isEmpty then []
  else
    (((splitAux false (trimL (collapseWS text)) []).foldl reduceStep []).map trimL).filter
      (fun s => !s.isEmpty)

/-- Joining a list of sentences with single spaces, as in the rejoin used
by the specification's round-trip and idempotence properties. -/
def joinSpace : List (List Char) → List Char
  | [] => []
  | [s] => s
  | s :: rest => s ++ ' ' :: joinSpace rest

/-- Specification-side helper: the non-whitespace content of a text, in
order.  Two texts with the same `removeWS` image agree up to inserted or
deleted whitespace. -/
def removeWS (l : List Char) : List Char :=
  l.filter (fun c => !isJsWS c)

/-! ## JSON values and JavaScript-style dynamic access

The analysis-result documents handled by `pollOperation` and
`extractPagesFromAzureResult` are JSON values.  JavaScript numbers are
modelled as integers (none of the probed fields is fractional), and
object fields are an association list with distinct keys. -/

inductive JsonVal where
  | null
  | bool (b : Bool)
  | num (n : Int)
  | str (s : String)
  | arr (elems : List JsonVal)
  | obj (fields : List (String × JsonVal))

/-- JavaScript truthiness of a defined value: `null`, `false`, `0` and
`""` are falsy, arrays and objects are always truthy. -/
def truthy : JsonVal → Bool
  | .null => false
  | .bool b => b
  | .num n => n != 0
  | .str s => s != ""
  | .arr _ => true
  | .obj _ => true

/-- Whether a value is the JSON `null`. -/
def isNull : JsonVal → Bool
  | .null => true
  | _ => false

def lookupFields : List (String × JsonVal) → String → Option JsonVal
  | [], _ => none
  | (k', v) :: rest, k => if k' = k then some v else lookupFields rest k

/-- Property read `v[k]` on a non-null value: a field of an object, and
`undefined` (modelled as `none`) on every other value or absent field. -/
def lookup (v : JsonVal) (k : String) : Option JsonVal :=
  match v with
  | .obj fields => lookupFields fields k
  | _ => none

/-- JavaScript `a || b` where `a` is a possibly-undefined property read
and `b` a defined value: the left value when truthy, otherwise `b`. -/
def jsOr (a : Option JsonVal) (b : JsonVal) : JsonVal :=
  match a with
  | some v => if truthy v then v else b
  | none => b

/-- Property read that models the JavaScript `TypeError` thrown when the
receiver is `null` (reading a property of `undefined`/`null` throws; on
every other value it yields the property or `undefined`). -/
def getProp (v : JsonVal) (k : String) : Except Unit (Option JsonVal) :=
  match v with
  | .null => .error ()
  | _ => .ok (lookup v k)

/-- ASCII lowering of a string, `s.toLowerCase()` (the statuses compared
against are ASCII). -/
def lowerStr (s : String) : String :=
  ⟨s.data.map Char.toLower⟩

/-- String conversion `String(v)` applied by `Array.prototype.join`:
strings stay, numbers print in decimal, booleans print as words, nested
arrays join their elements with commas (with `null` becoming empty), and
objects print as `[object Object]`. -/
def joinWith (sep : String) : List String → String
  | [] => ""
  | [x] => x
  | x :: rest => x ++ sep ++ joinWith sep rest

mutual

def jsToString : JsonVal → String
  | .null => "null"
  | .bool b => if b then "true" else "false"
  | .num n => toString n
  | .str s => s
  | .arr elems => joinWith "," (jsToStringElems elems)
  | .obj _ => "[object Object]"

def jsToStringElems : List JsonVal → List String
  | [] => []
  | .null :: rest => "" :: jsToStringElems rest
  | v :: rest => jsToString v :: jsToStringElems rest

end

/-! ## Result normalizer (src/server.js, extractPagesFromAzureResult, lines 184-200) -/

/-- Normalized page record `{ pageNumber, rawText }` produced by the
normalizer; `pageNumber` is whatever truthy value the page entry carried,
or JSON `null`. -/
structure Page where
  pageNumber : JsonVal
  rawText : String

/-- JavaScript `a || b` on two strings (used for `raw || ""`). -/
def jsOrStr (a b : String) : String :=
  if a ≠ "" then a else b

/-- The line-level fragment `l.text || l.content || ""` of the source;
reading a property throws when the line entry is `null`. -/
def lineText (l : JsonVal) : Except Unit JsonVal := do
  let lt ← getProp l "text"
  let lc ← getProp l "content"
  pure (jsOr lt (jsOr lc (.str "")))

/-- Raw text of one page entry: `p.text` when it is a string, else the
line fragments of `p.lines` joined with single spaces, else `p.content`
when it is a string, else the empty string.  Property reads occur in the
source order (`text`, then `lines`, then `content`). -/
def pageRawText (p : JsonVal) : Except Unit String := do
  let pText ← getProp p "text"
  match pText with
  | some (.str s) => pure s
  | _ => do
    let pLines ← getProp p "lines"
    match pLines with
    | some (.arr lines) => do
      let parts ← lines.mapM lineText
      pure (joinWith " " ((parts.map jsToString)))
    | _ => do
      let pContent ← getProp p "content"
      match pContent with
      | some (.str s) => pure s
      | _ => pure ""

/-- Body of the `pages.map(p => ...)` of the source: raw text as above
and `pageNumber: p.page || p.pageNumber || p.pageIndex || null`, with
`rawText: raw || ""`. -/
def mapPage (p : JsonVal) : Except Unit Page := do
  let raw ← pageRawText p
  let pg ← getProp p "page"
  let pn ← getProp p "pageNumber"
  let pi ← getProp p "pageIndex"
  pure { pageNumber := jsOr pg (jsOr pn (jsOr pi .null))
         rawText := jsOrStr raw "" }

/-- Embedding of `extractPagesFromAzureResult` (lines 184-200):
`analyze` is `data.analyzeResult || data`; the candidate page list is
`analyze.readResults || analyze.pageResults || analyze.pages ||
analyze.pages || []` (the source repeats `analyze.pages`); a candidate
that is not an array is replaced by the empty list; each entry is then
normalized by `mapPage`.  The source evaluates the candidate property
reads left to right with short-circuiting; reading them all is
equivalent because `analyze` is never `null` once the first read of
`data` has succeeded. -/
def extractPagesFromAzureResult (data : JsonVal) : Except Unit (List Page) := do
  let ar ← getProp data "analyzeResult"
  let analyze := jsOr ar data
  let c1 ← getProp analyze "readResults"
  let c2 ← getProp analyze "pageResults"
  let c3 ← getProp analyze "pages"
  let c4 ← getProp analyze "pages"
  let candidates := jsOr c1 (jsOr c2 (jsOr c3 (jsOr c4 (.arr []))))
  let pages := match candidates with
    | .arr xs => xs
    | _ => []
  pages.mapM mapPage

/-- Specification-side helper: the first truthy value among the reads of
the given keys, else JSON `null`. -/
def firstTruthyField (p : JsonVal) : List String → JsonVal
  | [] => .null
  | k :: ks =>
    match lookup p k with
    | some v => if truthy v then v else firstTruthyField p ks
    | none => firstTruthyField p ks

/-- Specification-side helper: short-circuiting `||` on two
possibly-undefined values, keeping the first truthy one. -/
def jsOrO (a b : Option JsonVal) : Option JsonVal :=
  match a with
  | some v => if truthy v then some v else b
  | none => b

/-- Specification-side helper: the candidate page list actually selected
by the truthiness chain of the normalizer, without the final `[]`
default: `none` when every candidate field is falsy. -/
def recognizedCandidates (data : JsonVal) : Option JsonVal :=
  let analyze := jsOr (lookup data "analyzeResult") data
  jsOrO (lookup analyze "readResults")
    (jsOrO (lookup analyze "pageResults")
      (jsOrO (lookup analyze "pages") (jsOrO (lookup analyze "pages") none)))

/-- Whether an optional value is an array. -/
def isArrOpt : Option JsonVal → Bool
  | some (.arr _) => true
  | _ => false

/-! ## Poll loop (src/server.js, pollOperation, lines 150-181)

The loop is driven by a script of poll responses (one per GET request
issued); virtual time advances only by the sleeps the loop performs, so
`elapsed` is the sum of the waits so far and the timeout condition
`Date.now() - start > TIMEOUT_MS` is `elapsed > timeoutMs`.  The run
records the sequence of waits and the number of GET requests issued. -/

/-- Poll configuration: `TIMEOUT_MS` and `POLL_INTERVAL_MS` are read
from the environment at startup. -/
structure PollConfig where
  timeoutMs : Nat
  pollIntervalMs : Nat

/-- One poll response: a JSON body, an HTTP error with a status (an
axios error carrying `err.response.status`), or a transport error
without a response. -/
inductive PollResp where
  | ok (data : JsonVal)
  | httpErr (status : Nat)
  | netErr

/-- Terminal outcome of `pollOperation`: success with the payload, the
operation itself reported failure, the overall timeout fired, some error
propagated, or the response script ran out (a model artifact standing
for a run that is still in the loop). -/
inductive PollOutcome where
  | succeeded (data : JsonVal)
  | opFailed (data : JsonVal)
  | timeout
  | pollError
  | stuck

/-- The status string `(data.status || "").toLowerCase()`: reading
`.status` throws on a `null` body, and `.toLowerCase()` throws when the
selected value is truthy but not a string; both propagate out of the
poll loop because the thrown error carries no HTTP response status. -/
def statusOf (data : JsonVal) : Except Unit String :=
  match data with
  | .null => .error ()
  | _ =>
    match jsOr (lookup data "status") (.str "") with
    | .str s => .ok (lowerStr s)
    | _ => .error ()

/-- Embedding of `pollOperation`: check the timeout at the top of each
iteration, then issue one GET.  A body with status `succeeded` or
`failed` is terminal; any other body sleeps `POLL_INTERVAL_MS` and
resets the retry counter; HTTP 429 increments the counter and sleeps
`min(1000 * 2 ** attempt, 30_000)`; HTTP 5xx sleeps a fixed 2000 ms
keeping the counter; anything else propagates.  The result is the
outcome together with the list of waits and the number of GETs. -/
def pollLoop (cfg : PollConfig) :
    List PollResp → Nat → Nat → PollOutcome × List Nat × Nat
  | script, elapsed, attempt =>
    if elapsed > cfg.timeoutMs then (.timeout, [], 0)
    else
      match script with
      | [] => (.stuck, [], 0)
      | r :: rest =>
        match r with
        | .ok data =>
          match statusOf data with
          | .error _ => (.pollError, [], 1)
          | .ok st =>
            if st = "succeeded" then (.succeeded data, [], 1)
            else if st = "failed" then (.opFailed data, [], 1)
            else
              let out := pollLoop cfg rest (elapsed + cfg.pollIntervalMs) 0
              (out.1, cfg.pollIntervalMs :: out.2.1, out.2.2 + 1)
        | .httpErr s =>
          if s = 429 then
            let backoff := min (1000 * 2 ^ (attempt + 1)) 30000
            let out := pollLoop cfg rest (elapsed + backoff) (attempt + 1)
            (out.1, backoff :: out.2.1, out.2.2 + 1)
          else if 500 ≤ s ∧ s < 600 then
            let out := pollLoop cfg rest (elapsed + 2000) attempt
            (out.1, 2000 :: out.2.1, out.2.2 + 1)
          else (.pollError, [], 1)
        | .netErr => (.pollError, [], 1)

/-- The sequence of waits produced by `k` consecutive 429 responses when
the retry counter starts at `attempt`: the counter is incremented before
the wait is computed, so the first wait is
`min(1000 * 2 ^ (attempt + 1), 30000)` and each further consecutive 429
doubles the previous wait until the 30000 ms cap. -/
def backoffs (attempt : Nat) : Nat → List Nat
  | 0 => []
  | k + 1 => min (1000 * 2 ^ (attempt + 1)) 30000 :: backoffs (attempt + 1) k

/-! ## The /analyze handler (src/server.js, lines 203-283)

The handler is embedded as a pure function of an environment that fixes
the request (whether multer delivered a file, its size, name extension)
and the outcomes of the external effects (Ghostscript availability,
compression results, the submission call, the poll-response script).
The files existing on disk that were created for this request are
tracked as a list of paths: multer creates the uploaded file before the
handler runs, a successful compression creates the compressed file (the
external tools are modelled as atomic: a failed compression creates
nothing), and `fs.promises.unlink` removes a path, with a failed unlink
of an absent path swallowed by the `try { ... } catch (e) { /* ignore */ }`
of the source, leaving the file set unchanged. -/

/-- Hard Azure upload ceiling, `AZURE_MAX_BYTES = 50 * 1024 * 1024`. -/
def AZURE_MAX_BYTES : Nat := 50 * 1024 * 1024

/-- The image extensions accepted for compression. -/
def supportedImageExts : List String := [".png", ".jpg", ".jpeg", ".tiff", ".tif"]

/-- An error thrown inside the try block: either one of the
intentionally thrown objects `{ status, message }`, or a plain `Error`
or exception without a `status` field (mapped to HTTP 500 by the
catch). -/
inductive PipeErr where
  | withStatus (s : Nat)
  | plain

/-- Environment of one /analyze request. -/
structure Env where
  /-- Whether multer delivered a `file` field (`req.file` non-null). -/
  fileProvided : Bool
  /-- Multer temp path of the uploaded artifact. -/
  origPath : String
  /-- Declared original filename. -/
  origName : String
  /-- Byte size `fs.promises.stat(origPath).size`. -/
  origSize : Nat
  /-- Lowercased extension `path.extname(origName).toLowerCase()`. -/
  ext : String
  /-- Configured soft threshold `MAX_SIZE_BYTES`. -/
  maxSizeBytes : Nat
  /-- Whether Ghostscript was detected at startup (`GS_CMD` non-null). -/
  gs : Bool
  /-- Whether the Ghostscript invocation exits with code 0. -/
  pdfCompressOk : Bool
  /-- Whether the sharp invocation succeeds. -/
  imgCompressOk : Bool
  /-- Byte size of the compressed artifact when compression ran. -/
  compressedSize : Nat
  /-- Outcome of `postAnalyzeBinary`: the operation-location header, or
  the thrown error. -/
  submitResult : Except PipeErr String
  /-- Poll configuration. -/
  pollCfg : PollConfig
  /-- Script of poll responses. -/
  pollScript : List PollResp

/-- Page of the success response: `{ pageNumber, rawText, sentences }`. -/
structure PageOut where
  pageNumber : JsonVal
  rawText : String
  sentences : List (List Char)

/-- The JSON response sent by the handler: an error body with its HTTP
status, or the success body `{ filename, pageCount, pages }`. -/
inductive Resp where
  | jsonErr (status : Nat)
  | okJson (filename : String) (pageCount : Nat) (pages : List PageOut)

/-- State of the try block when control leaves it: its result (`none`
when the poll script ran out, a model artifact for a run still inside
the poll loop), the files on disk, whether a submission request was
issued, and the `workPath`/`compressed` variables of the handler. -/
structure TryOut where
  result : Option (Except PipeErr (List PageOut))
  fs : List String
  submitted : Bool
  workPath : String
  compressed : Bool

/-- Output of the whole handler. -/
structure HandlerOut where
  response : Option Resp
  fs : List String
  submitted : Bool

/-- Best-effort `fs.promises.unlink` wrapped in try/catch: removes the
path when present; an error on an absent path is swallowed. -/
def unlinkQuiet (fs : List String) (p : String) : List String :=
  fs.filter (fun q => q ≠ p)

/-- The compressed output path: `outName` is
`basename(origPath) + "-compressed" + ext` and `outPath` joins it back
onto `dirname(origPath)`, hence `origPath + "-compressed" + ext`. -/
def outPathOf (env : Env) : String :=
  env.origPath ++ "-compressed" ++ env.ext

/-- Tail of the try block after the compression decision (lines
244-269): re-measure the working artifact against `AZURE_MAX_BYTES`,
submit, poll, normalize and segment. -/
def pipelineRest (env : Env) (fs : List String) (workPath : String)
    (compressed : Bool) (finalSize : Nat) : TryOut :=
  if finalSize > AZURE_MAX_BYTES then
    ⟨some (.error (.withStatus 413)), fs, false, workPath, compressed⟩
  else
    match env.submitResult with
    | .error e => ⟨some (.error e), fs, true, workPath, compressed⟩
    | .ok _opLocation =>
      match (pollLoop env.pollCfg env.pollScript 0 0).1 with
      | .succeeded data =>
        match extractPagesFromAzureResult data with
        | .error _ => ⟨some (.error .plain), fs, true, workPath, compressed⟩
        | .ok pagesRaw =>
          ⟨some (.ok (pagesRaw.map (fun p =>
              ⟨p.pageNumber, p.rawText, splitIntoSentences p.rawText.data⟩))),
            fs, true, workPath, compressed⟩
      | .stuck => ⟨none, fs, true, workPath, compressed⟩
      | _ => ⟨some (.error .plain), fs, true, workPath, compressed⟩

/-- The try block of the handler (lines 215-269): stat the upload, when
it exceeds `MAX_SIZE_BYTES` pick a compression path by extension (reject
oversized PDFs with status 413 when Ghostscript is absent, reject
unsupported extensions with 415), then continue with `pipelineRest`.
There is no check that the upload is non-empty: any size not above the
threshold flows straight through. -/
def tryBlock (env : Env) (fs : List String) : TryOut :=
  let size := env.origSize
  if size > env.maxSizeBytes then
    let outPath := outPathOf env
    if env.ext = ".pdf" then
      if env.gs = false then
        ⟨some (.error (.withStatus 413)), fs, false, env.origPath, false⟩
      else if env.pdfCompressOk then
        pipelineRest env (fs ++ [outPath]) outPath true env.compressedSize
      else
        ⟨some (.error .plain), fs, false, env.origPath, false⟩
    else if env.ext ∈ supportedImageExts then
      if env.imgCompressOk then
        pipelineRest env (fs ++ [outPath]) outPath true env.compressedSize
      else
        ⟨some (.error .plain), fs, false, env.origPath, false⟩
    else
      ⟨some (.error (.withStatus 415)), fs, false, env.origPath, false⟩
  else
    pipelineRest env fs env.origPath false env.origSize

/-- Embedding of the /analyze handler (lines 203-283).  A missing file
field returns 400 immediately.  On success the handler deletes the
original upload and, when `compressed` and the working path differs from
the original, the compressed artifact, then sends the success body.  On
any thrown error the catch deletes the original and any distinct working
path, and answers with the thrown status or 500.  The truthiness test
`workPath && ...` of the source is the non-empty-string test. -/
def analyzeHandler (env : Env) : HandlerOut :=
  if env.fileProvided = false then ⟨some (.jsonErr 400), [], false⟩
  else
    let t := tryBlock env [env.origPath]
    match t.result with
    | none => ⟨none, t.fs, t.submitted⟩
    | some (.ok pages) =>
      let fs1 := unlinkQuiet t.fs env.origPath
      let fs2 :=
        if t.compressed ∧ t.workPath ≠ "" ∧ t.workPath ≠ env.origPath then
          unlinkQuiet fs1 t.workPath
        else fs1
      ⟨some (.okJson env.origName pages.length pages), fs2, t.submitted⟩
    | some (.error e) =>
      let fs1 := unlinkQuiet t.fs env.origPath
      let fs2 :=
        if t.workPath ≠ "" ∧ t.workPath ≠ env.origPath then
          unlinkQuiet fs1 t.workPath
        else fs1
      ⟨some (.jsonErr (match e with | .withStatus s => s | .plain => 500)), fs2, t.submitted⟩

/-! ## Concrete fixtures used by the theorems -/

/-- A poll body whose status is `running`. -/
def runningDoc : JsonVal := .obj [("status", .str "running")]

/-- A poll body whose status is `succeeded` (with no recognizable result
shape, so the normalizer yields no pages). -/
def succeededDoc : JsonVal := .obj [("status", .str "succeeded")]

/-- A request environment for a small pdf upload whose analysis
succeeds. -/
def baseEnv : Env where
  fileProvided := true
  origPath := "uploads/abc123"
  origName := "doc.pdf"
  origSize := 1000
  ext := ".pdf"
  maxSizeBytes := 10485760
  gs := true
  pdfCompressOk := true
  imgCompressOk := true
  compressedSize := 1000
  submitResult := .ok "https://region.example/formrecognizer/op/1"
  pollCfg := ⟨120000, 1000⟩
  pollScript := [.ok succeededDoc]

/-! ## Helper lemmas about the sentence splitter -/

theorem removeWS_cons (c : Char) (l : List Char) :
    removeWS (c :: l) = removeWS [c] ++ removeWS l := by
  simp [removeWS, List.filter_cons]
  split <;> simp

theorem removeWS_append (a b : List Char) :
    removeWS (a ++ b) = removeWS a ++ removeWS b := by
  simp [removeWS, List.filter_append]

theorem removeWS_ws {c : Char} (h : isJsWS c = true) (l : List Char) :
    removeWS (c :: l) = removeWS l := by
  simp [removeWS, List.filter_cons, h]

theorem removeWS_nil : removeWS [] = [] := rfl

theorem punct_not_ws {c : Char} (h : isPunct c = true) : isJsWS c = false := by
  simp only [isPunct, Bool.or_eq_true, decide_eq_true_eq] at h
  rcases h with (h | h) | h <;> subst h <;> decide

theorem collapseWSAux_cons (b : Bool) (c : Char) (rest : List Char) :
    collapseWSAux b (c :: rest) =
      if isJsWS c then
        if b then collapseWSAux true rest else ' ' :: collapseWSAux true rest
      else c :: collapseWSAux false rest := rfl

theorem removeWS_collapseWSAux (l : List Char) : ∀ (b : Bool),
    removeWS (collapseWSAux b l) = removeWS l := by
  induction l with
  | nil => intro b; rfl
  | cons c rest ih =>
    intro b
    by_cases h : isJsWS c = true
    · rw [collapseWSAux_cons, if_pos h, removeWS_ws h]
      cases b
      · rw [if_neg (by decide), removeWS_ws (show isJsWS ' ' = true by decide), ih]
      · rw [if_pos rfl, ih]
    · rw [collapseWSAux_cons, if_neg h, removeWS_cons c (collapseWSAux false rest), ih,
        ← removeWS_cons c rest]

theorem removeWS_dropWhile (l : List Char) :
    removeWS (l.dropWhile isJsWS) = removeWS l := by
  induction l with
  | nil => rfl
  | cons c rest ih =>
    by_cases h : isJsWS c = true
    · simp [List.dropWhile_cons, h, ih, removeWS_ws h]
    · simp only [Bool.not_eq_true] at h
      simp [List.dropWhile_cons, h]

theorem removeWS_reverse (l : List Char) :
    removeWS l.reverse = (removeWS l).reverse := by
  simp [removeWS, List.filter_reverse]

theorem removeWS_trimL (l : List Char) : removeWS (trimL l) = removeWS l := by
  unfold trimL
  rw [removeWS_reverse, removeWS_dropWhile, removeWS_reverse, List.reverse_reverse,
    removeWS_dropWhile]

theorem splitAux_cons (skip : Bool) (c : Char) (rest cur : List Char) :
    splitAux skip (c :: rest) cur =
      if skip && isJsWS c then splitAux true rest cur
      else if isPunct c then
        match rest with
        | [] => [(c :: cur).reverse]
        | d :: _ =>
          if isJsWS d then cur.reverse :: [c] :: splitAux true rest []
          else splitAux false rest (c :: cur)
      else splitAux false rest (c :: cur) := rfl

theorem removeWS_flatten_splitAux (l : List Char) : ∀ (skip : Bool) (cur : List Char),
    removeWS (splitAux skip l cur).flatten = removeWS cur.reverse ++ removeWS l := by
  induction l with
  | nil => intro skip cur; simp [splitAux, removeWS_nil]
  | cons c rest ih =>
    intro skip cur
    rw [splitAux_cons]
    by_cases h1 : (skip && isJsWS c) = true
    · have hws : isJsWS c = true := ((Bool.and_eq_true _ _).mp h1).2
      rw [if_pos h1, ih, removeWS_ws hws]
    · rw [if_neg h1]
      by_cases h2 : isPunct c = true
      · rw [if_pos h2]
        cases rest with
        | nil =>
          show removeWS ([(c :: cur).reverse]).flatten = removeWS cur.reverse ++ removeWS [c]
          rw [List.flatten_cons, List.flatten_nil, List.append_nil, List.reverse_cons,
            removeWS_append]
        | cons d rest2 =>
          by_cases h3 : isJsWS d = true
          · show removeWS ((if isJsWS d then cur.reverse :: [c] :: splitAux true (d :: rest2) []
                else splitAux false (d :: rest2) (c :: cur)).flatten) =
              removeWS cur.reverse ++ removeWS (c :: d :: rest2)
            rw [if_pos h3, List.flatten_cons, List.flatten_cons, removeWS_append, removeWS_append,
              ih, removeWS_cons c (d :: rest2)]
            simp [removeWS_nil, List.append_assoc]
          · show removeWS ((if isJsWS d then cur.reverse :: [c] :: splitAux true (d :: rest2) []
                else splitAux false (d :: rest2) (c :: cur)).flatten) =
              removeWS cur.reverse ++ removeWS (c :: d :: rest2)
            rw [if_neg h3, ih, List.reverse_cons, removeWS_append,
              removeWS_cons c (d :: rest2)]
            simp [List.append_assoc]
      · rw [if_neg h2, ih, List.reverse_cons, removeWS_append, removeWS_cons c rest]
        simp [List.append_assoc]

theorem getLastD_irrel {α : Type} (t : List α) (x y : α) (h : t ≠ []) :
    t.getLastD x = t.getLastD y := by
  cases t with
  | nil => exact absurd rfl h
  | cons a l => simp [List.getLastD]

theorem flatten_dropLast_getLastD (acc : List (List Char)) (c : List Char) (h : acc ≠ []) :
    (acc.dropLast ++ [acc.getLastD [] ++ c]).flatten = acc.flatten ++ c := by
  induction acc using List.reverseRecOn with
  | nil => exact absurd rfl h
  | append_singleton as a _ =>
    rw [List.dropLast_concat, List.getLastD_concat]
    simp

theorem removeWS_flatten_reduceStep (acc : List (List Char)) (c : List Char) :
    removeWS (reduceStep acc c).flatten = removeWS acc.flatten ++ removeWS c := by
  unfold reduceStep
  by_cases h1 : (c.any isPunct && !acc.isEmpty) = true
  · have hne : acc ≠ [] := by
      have := (Bool.and_eq_true _ _).mp h1 |>.2
      simp only [Bool.not_eq_true'] at this
      exact List.isEmpty_eq_false.mp this
    rw [if_pos h1, flatten_dropLast_getLastD acc c hne, removeWS_append]
  · rw [if_neg h1]
    by_cases h2 : (!(trimL c).isEmpty) = true
    · rw [if_pos h2]
      simp [removeWS_append, removeWS_trimL]
    · rw [if_neg h2]
      have : trimL c = [] := by
        have h2' : (trimL c).isEmpty = true := by revert h2; cases (trimL c).isEmpty <;> simp
        exact List.isEmpty_iff.mp h2'
      have hc : removeWS c = [] := by
        rw [← removeWS_trimL, this]; rfl
      simp [hc]

theorem removeWS_flatten_foldl (chunks : List (List Char)) : ∀ (acc : List (List Char)),
    removeWS (chunks.foldl reduceStep acc).flatten =
      removeWS acc.flatten ++ removeWS chunks.flatten := by
  induction chunks with
  | nil => intro acc; simp [removeWS_nil]
  | cons x xs ih =>
    intro acc
    rw [List.foldl_cons, ih, removeWS_flatten_reduceStep, List.flatten_cons, removeWS_append,
      List.append_assoc]

theorem removeWS_flatten_map_trimL (s : List (List Char)) :
    removeWS (s.map trimL).flatten = removeWS s.flatten := by
  induction s with
  | nil => rfl
  | cons x xs ih =>
    rw [List.map_cons, List.flatten_cons, List.flatten_cons, removeWS_append, removeWS_append,
      removeWS_trimL, ih]

theorem flatten_filter_nonempty (s : List (List Char)) :
    (s.filter (fun x => !x.isEmpty)).flatten = s.flatten := by
  induction s with
  | nil => rfl
  | cons x xs ih =>
    by_cases h : x.isEmpty = true
    · have : x = [] := List.isEmpty_iff.mp h
      simp [List.filter_cons, h, ih, this]
    · simp only [Bool.not_eq_true] at h
      simp [List.filter_cons, h, ih]

theorem removeWS_joinSpace (s : List (List Char)) :
    removeWS (joinSpace s) = removeWS s.flatten := by
  induction s with
  | nil => rfl
  | cons x xs ih =>
    cases xs with
    | nil => simp [joinSpace]
    | cons y t =>
      rw [show joinSpace (x :: y :: t) = x ++ ' ' :: joinSpace (y :: t) from rfl,
        removeWS_append, removeWS_ws (show isJsWS ' ' = true by decide), ih]
      simp [List.flatten_cons, removeWS_append]

/-! ## Claim C1 -/

/-- C1: the specified example output is wrong about the code.  On the
input `"Hello world. Is this real? Yes!!"` the function returns the two
sentences `["Hello world.", "Is this real?Yes!!"]`, not the three
sentences `["Hello world.", "Is this real?", "Yes!!"]` claimed: the
final split piece `"Yes!!"` contains punctuation, so the unanchored test
`/[.?!]/.test(chunk)` of the reduce appends it (without a space) to the
previous sentence instead of pushing it as a new one. -/
theorem c1_splitIntoSentences_example_merges_final_sentence :
    splitIntoSentences ("Hello world. Is this real? Yes!!".toList) =
      ["Hello world.".toList, "Is this real?Yes!!".toList] ∧
    splitIntoSentences ("Hello world. Is this real? Yes!!".toList) ≠
      ["Hello world.".toList, "Is this real?".toList, "Yes!!".toList] := by
  constructor
  · decide
  · decide

/-! ## Claim C3 -/

/-- C3, counterexample: joining the sentences of `"a . b"` with single
spaces gives `"a. b"`, while the whitespace-collapsed and trimmed input
is `"a . b"`: the space standing before the sentence-terminal
punctuation is lost, so rejoining does not reproduce the normalized
input. -/
theorem c3_join_not_normalized_input :
    joinSpace (splitIntoSentences ("a . b".toList)) ≠
      trimL (collapseWS ("a . b".toList)) := by
  decide

/-- C3, amended: joining the sentences with single spaces reproduces the
input only up to whitespace: the non-whitespace characters of the
rejoined output are exactly the non-whitespace characters of the input,
in order (no character other than whitespace is lost or reordered), but
whitespace beyond the collapsed runs can be dropped. -/
theorem c3_amended_join_preserves_nonwhitespace (text : List Char) :
    removeWS (joinSpace (splitIntoSentences text)) = removeWS text := by
  unfold splitIntoSentences
  by_cases h : text.isEmpty = true
  · rw [if_pos h, List.isEmpty_iff.mp h]; rfl
  · rw [if_neg h, removeWS_joinSpace, flatten_filter_nonempty, removeWS_flatten_map_trimL,
      removeWS_flatten_foldl, removeWS_flatten_splitAux, removeWS_trimL]
    unfold collapseWS
    rw [removeWS_collapseWSAux]
    simp [removeWS_nil]

/-- C3, witness: the preserved-content equation at the counterexample
input. -/
theorem c3_amended_witness :
    removeWS (joinSpace (splitIntoSentences ("a . b".toList))) =
      removeWS ("a . b".toList) :=
  c3_amended_join_preserves_nonwhitespace ("a . b".toList)

/-! ## Claim C4 -/

/-- C4: segmentation is not idempotent on its own output.  For the input
`"Hello world. Is this real? Yes!!"` the output is
`["Hello world.", "Is this real?Yes!!"]`; rejoining with single spaces
and segmenting again merges everything into the single sentence
`["Hello world.Is this real?Yes!!"]`, because the second sentence
contains interior punctuation and is therefore appended to the first by
the unanchored punctuation test of the reduce. -/
theorem c4_resegmenting_rejoined_output_differs :
    splitIntoSentences
        (joinSpace (splitIntoSentences ("Hello world. Is this real? Yes!!".toList))) ≠
      splitIntoSentences ("Hello world. Is this real? Yes!!".toList) := by
  decide

/-! ## Helper lemmas about the poll loop -/

theorem pollLoop_timeout_now (cfg : PollConfig) (script : List PollResp)
    (elapsed attempt : Nat) (h : elapsed > cfg.timeoutMs) :
    pollLoop cfg script elapsed attempt = (.timeout, [], 0) := by
  unfold pollLoop
  rw [if_pos h]

theorem pollLoop_429 (cfg : PollConfig) (rest : List PollResp) (elapsed attempt : Nat)
    (h : ¬ elapsed > cfg.timeoutMs) :
    pollLoop cfg (.httpErr 429 :: rest) elapsed attempt =
      ((pollLoop cfg rest (elapsed + min (1000 * 2 ^ (attempt + 1)) 30000) (attempt + 1)).1,
       min (1000 * 2 ^ (attempt + 1)) 30000 ::
         (pollLoop cfg rest (elapsed + min (1000 * 2 ^ (attempt + 1)) 30000) (attempt + 1)).2.1,
       (pollLoop cfg rest (elapsed + min (1000 * 2 ^ (attempt + 1)) 30000) (attempt + 1)).2.2
         + 1) := by
  conv_lhs => unfold pollLoop
  rw [if_neg h]
  rfl

theorem pollLoop_still_running (cfg : PollConfig) (data : JsonVal) (st : String)
    (rest : List PollResp) (elapsed attempt : Nat) (h : ¬ elapsed > cfg.timeoutMs)
    (hst : statusOf data = .ok st) (h1 : st ≠ "succeeded") (h2 : st ≠ "failed") :
    pollLoop cfg (.ok data :: rest) elapsed attempt =
      ((pollLoop cfg rest (elapsed + cfg.pollIntervalMs) 0).1,
       cfg.pollIntervalMs :: (pollLoop cfg rest (elapsed + cfg.pollIntervalMs) 0).2.1,
       (pollLoop cfg rest (elapsed + cfg.pollIntervalMs) 0).2.2 + 1) := by
  conv_lhs => unfold pollLoop
  rw [if_neg h]
  simp only [hst]
  rw [if_neg h1, if_neg h2]

/-! ## Claim C2 -/

/-- C2, counterexample: with the default configuration (poll interval
1000 ms) the wait after the first 429 is 2000 ms, not the configured
poll interval: the code computes `min(1000 * 2 ** attempt, 30_000)`
after incrementing `attempt`, from the hardcoded base 1000, so the
backoff sequence starts at 2000 ms. -/
theorem c2_first_backoff_not_poll_interval :
    (pollLoop ⟨120000, 1000⟩ [.httpErr 429, .ok runningDoc, .ok succeededDoc] 0 0).2.1 =
      [2000, 1000] ∧
    ¬ (pollLoop ⟨120000, 1000⟩ [.httpErr 429, .ok runningDoc, .ok succeededDoc] 0 0).2.1.head? =
      some (PollConfig.pollIntervalMs ⟨120000, 1000⟩) := by
  constructor
  · decide
  · decide

/-- C2, amended: on `k` consecutive 429 responses the waits are
`backoffs attempt k`, i.e. they start at `min(1000 * 2, 30000) = 2000`
ms — twice the hardcoded 1000 ms base, not the configured poll
interval — and double with each consecutive 429 up to the 30000 ms cap,
with the retry counter incremented per 429; and the counter resets to
zero as soon as one poll succeeds with a non-terminal (non-429) status
body.  The inequality hypothesis keeps each of these iterations below
the overall timeout. -/
theorem c2_amended_backoff_sequence_and_reset :
    (∀ (cfg : PollConfig) (rest : List PollResp) (k elapsed attempt : Nat),
      elapsed + (backoffs attempt k).sum ≤ cfg.timeoutMs →
      pollLoop cfg (List.replicate k (.httpErr 429) ++ rest) elapsed attempt =
        ((pollLoop cfg rest (elapsed + (backoffs attempt k).sum) (attempt + k)).1,
         backoffs attempt k ++
           (pollLoop cfg rest (elapsed + (backoffs attempt k).sum) (attempt + k)).2.1,
         (pollLoop cfg rest (elapsed + (backoffs attempt k).sum) (attempt + k)).2.2 + k)) ∧
    (∀ (cfg : PollConfig) (data : JsonVal) (st : String) (rest : List PollResp)
      (elapsed attempt : Nat),
      elapsed ≤ cfg.timeoutMs → statusOf data = .ok st → st ≠ "succeeded" → st ≠ "failed" →
      pollLoop cfg (.ok data :: rest) elapsed attempt =
        ((pollLoop cfg rest (elapsed + cfg.pollIntervalMs) 0).1,
         cfg.pollIntervalMs :: (pollLoop cfg rest (elapsed + cfg.pollIntervalMs) 0).2.1,
         (pollLoop cfg rest (elapsed + cfg.pollIntervalMs) 0).2.2 + 1)) := by
  constructor
  · intro cfg rest k
    induction k with
    | zero =>
      intro elapsed attempt h
      simp [backoffs]
    | succ k ihk =>
      intro elapsed attempt h
      have hsum : (backoffs attempt (k + 1)).sum =
          min (1000 * 2 ^ (attempt + 1)) 30000 + (backoffs (attempt + 1) k).sum := by
        simp [backoffs]
      have hle : ¬ elapsed > cfg.timeoutMs := by omega
      rw [List.replicate_succ, List.cons_append, pollLoop_429 cfg _ elapsed attempt hle,
        ihk (elapsed + min (1000 * 2 ^ (attempt + 1)) 30000) (attempt + 1) (by omega)]
      have harr : elapsed + min (1000 * 2 ^ (attempt + 1)) 30000 +
          (backoffs (attempt + 1) k).sum = elapsed + (backoffs attempt (k + 1)).sum := by omega
      rw [harr, show attempt + 1 + k = attempt + (k + 1) by omega]
      simp [backoffs, List.append_assoc]
      omega
  · intro cfg data st rest elapsed attempt h hst h1 h2
    exact pollLoop_still_running cfg data st rest elapsed attempt (by omega) hst h1 h2

/-- C2, witness: three consecutive 429 responses followed by a
successful poll produce the waits 2000, 4000, 8000. -/
theorem c2_amended_witness :
    pollLoop ⟨120000, 1000⟩ (List.replicate 3 (.httpErr 429) ++ [.ok succeededDoc]) 0 0 =
      ((pollLoop ⟨120000, 1000⟩ [.ok succeededDoc] (0 + (backoffs 0 3).sum) (0 + 3)).1,
       backoffs 0 3 ++
         (pollLoop ⟨120000, 1000⟩ [.ok succeededDoc] (0 + (backoffs 0 3).sum) (0 + 3)).2.1,
       (pollLoop ⟨120000, 1000⟩ [.ok succeededDoc] (0 + (backoffs 0 3).sum) (0 + 3)).2.2 + 3) ∧
    pollLoop ⟨120000, 1000⟩ [.ok runningDoc, .ok succeededDoc] 0 7 =
      ((pollLoop ⟨120000, 1000⟩ [.ok succeededDoc] (0 + 1000) 0).1,
       1000 :: (pollLoop ⟨120000, 1000⟩ [.ok succeededDoc] (0 + 1000) 0).2.1,
       (pollLoop ⟨120000, 1000⟩ [.ok succeededDoc] (0 + 1000) 0).2.2 + 1) :=
  ⟨c2_amended_backoff_sequence_and_reset.1 ⟨120000, 1000⟩ [.ok succeededDoc] 3 0 0 (by decide),
   c2_amended_backoff_sequence_and_reset.2 ⟨120000, 1000⟩ runningDoc "running" [.ok succeededDoc]
     0 7 (by decide) rfl (by decide) (by decide)⟩

/-! ## Claim C8 -/

/-- C8: the overall timeout is checked once per loop iteration before
the next poll request: whenever the elapsed time exceeds the configured
timeout the call returns the timeout outcome with no wait and zero
further poll requests, for every script and every in-flight backoff
counter; and a service that keeps answering a running status until past
the deadline makes the call fail with the timeout outcome. -/
theorem c8_timeout_checked_before_each_poll :
    (∀ (cfg : PollConfig) (script : List PollResp) (elapsed attempt : Nat),
      elapsed > cfg.timeoutMs →
      pollLoop cfg script elapsed attempt = (.timeout, [], 0)) ∧
    (∀ (cfg : PollConfig) (n elapsed attempt : Nat),
      cfg.timeoutMs < elapsed + n * cfg.pollIntervalMs →
      (pollLoop cfg (List.replicate n (.ok runningDoc)) elapsed attempt).1 = .timeout) := by
  constructor
  · exact fun cfg script elapsed attempt h => pollLoop_timeout_now cfg script elapsed attempt h
  · intro cfg n
    induction n with
    | zero =>
      intro elapsed attempt h
      rw [pollLoop_timeout_now cfg _ elapsed attempt (by omega)]
    | succ n ihn =>
      intro elapsed attempt h
      by_cases hel : elapsed > cfg.timeoutMs
      · rw [pollLoop_timeout_now cfg _ elapsed attempt hel]
      · rw [List.replicate_succ,
          pollLoop_still_running cfg runningDoc "running" _ elapsed attempt hel rfl
            (by decide) (by decide)]
        exact ihn (elapsed + cfg.pollIntervalMs) 0 (by
          have : (n + 1) * cfg.pollIntervalMs = cfg.pollIntervalMs + n * cfg.pollIntervalMs := by
            ring
          omega)

/-- C8, witness: a run already past the deadline stops with no further
poll regardless of the backoff counter, and nine running responses
against a 5-second timeout with a 1-second interval end in timeout. -/
theorem c8_witness :
    pollLoop ⟨5000, 1000⟩ [.httpErr 429] 6000 5 = (.timeout, [], 0) ∧
    (pollLoop ⟨5000, 1000⟩ (List.replicate 9 (.ok runningDoc)) 0 3).1 = .timeout :=
  ⟨c8_timeout_checked_before_each_poll.1 ⟨5000, 1000⟩ [.httpErr 429] 6000 5 (by decide),
   c8_timeout_checked_before_each_poll.2 ⟨5000, 1000⟩ 9 0 3 (by decide)⟩

/-! ## Helper lemmas about the result normalizer -/

theorem getProp_not_null {v : JsonVal} (h : isNull v = false) (k : String) :
    getProp v k = .ok (lookup v k) := by
  cases v with
  | null => simp [isNull] at h
  | bool b => rfl
  | num n => rfl
  | str s => rfl
  | arr elems => rfl
  | obj fields => rfl

theorem bind_ok {ε α β : Type} (x : α) (f : α → Except ε β) :
    ((Except.ok x : Except ε α) >>= f) = f x := rfl

theorem bind_error {ε α β : Type} (e : ε) (f : α → Except ε β) :
    ((Except.error e : Except ε α) >>= f) = Except.error e := rfl

theorem jsOr_none (b : JsonVal) : jsOr none b = b := rfl

theorem jsOr_some (v b : JsonVal) : jsOr (some v) b = if truthy v then v else b := rfl

theorem jsOrO_none (b : Option JsonVal) : jsOrO none b = b := rfl

theorem jsOrO_some (v : JsonVal) (b : Option JsonVal) :
    jsOrO (some v) b = if truthy v then some v else b := rfl

theorem isNull_jsOr {a : Option JsonVal} {b : JsonVal} (h : isNull b = false) :
    isNull (jsOr a b) = false := by
  cases a with
  | none => exact h
  | some v =>
    rw [jsOr_some]
    by_cases ht : truthy v = true
    · rw [if_pos ht]
      cases v with
      | null => simp [truthy] at ht
      | bool b' => rfl
      | num n => rfl
      | str s => rfl
      | arr elems => rfl
      | obj fields => rfl
    · rw [if_neg ht]; exact h

theorem select_eq_nil (ls : List (Option JsonVal))
    (h : isArrOpt (ls.foldr jsOrO none) = false) :
    (match ls.foldr (fun o acc => jsOr o acc) (JsonVal.arr []) with
      | .arr xs => xs
      | _ => []) = ([] : List JsonVal) := by
  induction ls with
  | nil => rfl
  | cons o rest ih =>
    rw [List.foldr_cons] at h
    simp only [List.foldr_cons]
    cases o with
    | none =>
      rw [jsOrO_none] at h
      rw [jsOr_none]
      exact ih h
    | some v =>
      rw [jsOrO_some] at h
      rw [jsOr_some]
      by_cases ht : truthy v = true
      · rw [if_pos ht] at h
        rw [if_pos ht]
        cases v with
        | arr elems => simp [isArrOpt] at h
        | null => rfl
        | bool b => rfl
        | num n => rfl
        | str s => rfl
        | obj fields => rfl
      · rw [if_neg ht] at h
        rw [if_neg ht]
        exact ih h

theorem firstTruthyField_cons (p : JsonVal) (k : String) (ks : List String) :
    firstTruthyField p (k :: ks) = jsOr (lookup p k) (firstTruthyField p ks) := rfl

theorem firstTruthyField_eq_foldr (p : JsonVal) (ks : List String) :
    firstTruthyField p ks = ks.foldr (fun k acc => jsOr (lookup p k) acc) .null := by
  induction ks with
  | nil => rfl
  | cons k ks ih =>
    rw [firstTruthyField_cons, List.foldr_cons, ih]

/-! ## Claim C9 -/

/-- C9, counterexample: on the `null` document (a JSON value the remote
service can return) the property read `data.analyzeResult` throws a
TypeError, so the normalizer does raise an error instead of returning an
empty page list. -/
theorem c9_null_document_throws :
    extractPagesFromAzureResult JsonVal.null = .error () := rfl

/-- C9, amended: for every non-null analysis-result document whose
candidate chain selects no array (every recognized field is falsy or the
first truthy one is not a list), the normalizer returns the empty page
list and raises no error. -/
theorem c9_amended_unknown_shape_yields_empty (data : JsonVal)
    (h0 : isNull data = false)
    (h1 : isArrOpt (recognizedCandidates data) = false) :
    extractPagesFromAzureResult data = .ok [] := by
  have hA : isNull (jsOr (lookup data "analyzeResult") data) = false := isNull_jsOr h0
  unfold extractPagesFromAzureResult
  simp only [getProp_not_null h0, getProp_not_null hA, bind_ok]
  have h1' : isArrOpt
      (([(lookup (jsOr (lookup data "analyzeResult") data) "readResults"),
         (lookup (jsOr (lookup data "analyzeResult") data) "pageResults"),
         (lookup (jsOr (lookup data "analyzeResult") data) "pages"),
         (lookup (jsOr (lookup data "analyzeResult") data) "pages")].foldr jsOrO none)) =
      false := h1
  rw [show (jsOr (lookup (jsOr (lookup data "analyzeResult") data) "readResults")
      (jsOr (lookup (jsOr (lookup data "analyzeResult") data) "pageResults")
        (jsOr (lookup (jsOr (lookup data "analyzeResult") data) "pages")
          (jsOr (lookup (jsOr (lookup data "analyzeResult") data) "pages") (.arr []))))) =
      ([(lookup (jsOr (lookup data "analyzeResult") data) "readResults"),
        (lookup (jsOr (lookup data "analyzeResult") data) "pageResults"),
        (lookup (jsOr (lookup data "analyzeResult") data) "pages"),
        (lookup (jsOr (lookup data "analyzeResult") data) "pages")].foldr
          (fun o acc => jsOr o acc) (.arr [])) from rfl]
  rw [select_eq_nil _ h1']
  rfl

/-- C9, witness: a document whose analyzeResult is a plain string has no
recognized page list and normalizes to the empty page list. -/
theorem c9_witness :
    extractPagesFromAzureResult (JsonVal.obj [("analyzeResult", JsonVal.str "x")]) = .ok [] :=
  c9_amended_unknown_shape_yields_empty (JsonVal.obj [("analyzeResult", JsonVal.str "x")])
    (by decide) (by decide)

/-! ## Claim C10 -/

/-- C10: every page entry that the normalizer processes without throwing
gets `pageNumber` equal to the first truthy value among its `page`,
`pageNumber` and `pageIndex` fields, else JSON null; in particular an
entry whose numbering fields are all falsy — including a numeric page
number 0 — comes out with a null `pageNumber`. -/
theorem c10_pageNumber_first_truthy :
    (∀ (p : JsonVal) (pg : Page), mapPage p = .ok pg →
      pg.pageNumber = firstTruthyField p ["page", "pageNumber", "pageIndex"]) ∧
    extractPagesFromAzureResult
        (JsonVal.obj [("readResults", JsonVal.arr
          [JsonVal.obj [("page", JsonVal.num 0), ("pageNumber", JsonVal.bool false),
            ("pageIndex", JsonVal.str "")]])]) =
      .ok [{ pageNumber := JsonVal.null, rawText := "" }] := by
  constructor
  · intro p pg h
    cases hr : pageRawText p with
    | error e =>
      unfold mapPage at h
      rw [hr, bind_error] at h
      exact Except.noConfusion h
    | ok raw =>
      have hp : isNull p = false := by
        cases p with
        | null =>
          rw [show pageRawText JsonVal.null = .error () from rfl] at hr
          exact Except.noConfusion hr
        | bool b => rfl
        | num n => rfl
        | str s => rfl
        | arr elems => rfl
        | obj fields => rfl
      unfold mapPage at h
      rw [hr] at h
      simp only [bind_ok, getProp_not_null hp] at h
      have h2 : Page.mk
          (jsOr (lookup p "page")
            (jsOr (lookup p "pageNumber") (jsOr (lookup p "pageIndex") .null)))
          (jsOrStr raw "") = pg := Except.ok.inj h
      rw [← h2, firstTruthyField_eq_foldr]
      rfl
  · rfl

/-- C10, witness: an entry whose only numbering field is a truthy
`pageNumber` of 7 is normalized with that page number. -/
theorem c10_witness :
    (Page.mk (JsonVal.num 7) "").pageNumber =
      firstTruthyField (JsonVal.obj [("pageNumber", JsonVal.num 7)])
        ["page", "pageNumber", "pageIndex"] :=
  c10_pageNumber_first_truthy.1 (JsonVal.obj [("pageNumber", JsonVal.num 7)])
    (Page.mk (JsonVal.num 7) "") rfl

/-! ## Helper lemmas about the /analyze handler -/

theorem outPathOf_ne_orig (env : Env) : outPathOf env ≠ env.origPath := by
  intro h
  have h' := congrArg String.length h
  rw [outPathOf, String.length_append, String.length_append] at h'
  have h11 : String.length "-compressed" = 11 := rfl
  omega

theorem outPathOf_ne_empty (env : Env) : outPathOf env ≠ "" := by
  intro h
  have h' := congrArg String.length h
  rw [outPathOf, String.length_append, String.length_append] at h'
  have h11 : String.length "-compressed" = 11 := rfl
  have h0 : String.length "" = 0 := rfl
  omega

theorem unlinkQuiet_cons_eq (p : String) (rest : List String) :
    unlinkQuiet (p :: rest) p = unlinkQuiet rest p := by
  simp [unlinkQuiet, List.filter_cons]

theorem unlinkQuiet_cons_ne (q p : String) (rest : List String) (h : q ≠ p) :
    unlinkQuiet (q :: rest) p = q :: unlinkQuiet rest p := by
  simp [unlinkQuiet, List.filter_cons, h]

theorem pipelineRest_state (env : Env) (fs : List String) (w : String) (c : Bool) (sz : Nat) :
    (pipelineRest env fs w c sz).fs = fs ∧ (pipelineRest env fs w c sz).workPath = w ∧
      (pipelineRest env fs w c sz).compressed = c := by
  unfold pipelineRest
  repeat' split
  all_goals exact ⟨rfl, rfl, rfl⟩

theorem tryBlock_state (env : Env) (fs : List String) :
    ((tryBlock env fs).compressed = false ∧ (tryBlock env fs).workPath = env.origPath ∧
      (tryBlock env fs).fs = fs) ∨
    ((tryBlock env fs).compressed = true ∧ (tryBlock env fs).workPath = outPathOf env ∧
      (tryBlock env fs).fs = fs ++ [outPathOf env]) := by
  unfold tryBlock
  dsimp only
  repeat' split
  all_goals
    first
      | exact Or.inl ⟨rfl, rfl, rfl⟩
      | exact Or.inl ⟨(pipelineRest_state _ _ _ _ _).2.2, (pipelineRest_state _ _ _ _ _).2.1,
          (pipelineRest_state _ _ _ _ _).1⟩
      | exact Or.inr ⟨(pipelineRest_state _ _ _ _ _).2.2, (pipelineRest_state _ _ _ _ _).2.1,
          (pipelineRest_state _ _ _ _ _).1⟩

/-! ## Claim C5 -/

/-- C5: on every terminating exit path of one /analyze request, success
or failure, the cleanup deletes the original upload and any distinct
compressed working artifact (deletion errors are swallowed, which
`unlinkQuiet` models by leaving the file set unchanged on an absent
path), so no temporary file created for the request remains. -/
theorem c5_no_temp_artifact_remains (env : Env) (r : Resp)
    (h : (analyzeHandler env).response = some r) : (analyzeHandler env).fs = [] := by
  unfold analyzeHandler at h ⊢
  by_cases hf : env.fileProvided = false
  · rw [if_pos hf]
  · rw [if_neg hf] at h ⊢
    have hst := tryBlock_state env [env.origPath]
    rcases hc : tryBlock env [env.origPath] with ⟨res, fs0, sub, w, cB⟩
    rw [hc] at h hst
    dsimp only at h hst ⊢
    cases res with
    | none =>
      dsimp only at h
      exact Option.noConfusion h
    | some val =>
      cases val with
      | ok pages =>
        dsimp only at h ⊢
        rcases hst with ⟨hcB, hw, hfs0⟩ | ⟨hcB, hw, hfs0⟩
        · subst hcB; subst hw; subst hfs0
          rw [unlinkQuiet_cons_eq]
          rw [if_neg (by simp)]
          rfl
        · subst hcB; subst hw; subst hfs0
          rw [show [env.origPath] ++ [outPathOf env] = env.origPath :: [outPathOf env] from rfl,
            unlinkQuiet_cons_eq, unlinkQuiet_cons_ne _ _ _ (outPathOf_ne_orig env),
            if_pos ⟨rfl, outPathOf_ne_empty env, outPathOf_ne_orig env⟩,
            unlinkQuiet_cons_eq]
          rfl
      | error e =>
        dsimp only at h ⊢
        rcases hst with ⟨hcB, hw, hfs0⟩ | ⟨hcB, hw, hfs0⟩
        · subst hw; subst hfs0
          rw [unlinkQuiet_cons_eq]
          rw [if_neg (by
            intro hand
            exact hand.2 rfl)]
          rfl
        · subst hcB; subst hw; subst hfs0
          rw [show [env.origPath] ++ [outPathOf env] = env.origPath :: [outPathOf env] from rfl,
            unlinkQuiet_cons_eq, unlinkQuiet_cons_ne _ _ _ (outPathOf_ne_orig env),
            if_pos ⟨outPathOf_ne_empty env, outPathOf_ne_orig env⟩,
            unlinkQuiet_cons_eq]
          rfl

/-- C5, witness: the successful base request ends with no temporary
file on disk. -/
theorem c5_witness : (analyzeHandler baseEnv).fs = [] :=
  c5_no_temp_artifact_remains baseEnv (Resp.okJson "doc.pdf" 0 []) rfl

/-! ## Claim C6 -/

/-- Every branch of the handler after the multipart-field check reports
the submission flag of the try block. -/
theorem analyzeHandler_submitted (env : Env) (h : env.fileProvided = true) :
    (analyzeHandler env).submitted = (tryBlock env [env.origPath]).submitted := by
  unfold analyzeHandler
  rw [if_neg (by simp [h])]
  rcases hc : tryBlock env [env.origPath] with ⟨res, fs0, sub, w, cB⟩
  dsimp only
  cases res with
  | none => rfl
  | some val =>
    cases val with
    | ok pages => rfl
    | error e => rfl

/-- A zero-byte upload reaches the submission call of the try block: it
is not over the soft threshold, so compression is skipped, and it is not
over the hard ceiling, so the submit request is issued. -/
theorem tryBlock_zero_size_submits (env : Env) (fs : List String)
    (h : env.origSize = 0) : (tryBlock env fs).submitted = true := by
  unfold tryBlock
  dsimp only
  rw [if_neg (by omega)]
  unfold pipelineRest
  rw [if_neg (by rw [h]; decide)]
  cases env.submitResult with
  | error e => rfl
  | ok op =>
    dsimp only
    cases (pollLoop env.pollCfg env.pollScript 0 0).1 with
    | succeeded data =>
      dsimp only
      cases extractPagesFromAzureResult data with
      | error e => rfl
      | ok pagesRaw => rfl
    | opFailed data => rfl
    | timeout => rfl
    | pollError => rfl
    | stuck => rfl

/-- C6, counterexample: a present but zero-byte upload is not rejected
with the 400 missing-file error before the other steps: it flows through
the pipeline, the submission request is issued, and (here, with the
submission failing) the response is the generic 500, not 400. -/
theorem c6_zero_byte_upload_not_rejected :
    (analyzeHandler { baseEnv with origSize := 0, submitResult := .error .plain }).submitted
        = true ∧
    (analyzeHandler { baseEnv with origSize := 0, submitResult := .error .plain }).response =
      some (.jsonErr 500) := by
  constructor
  · rfl
  · rfl

/-- C6, amended: the only existence validation is the check that the
multipart file field is present, answered with status 400 and no
submission; the artifact's byte size is never validated against zero,
and a zero-byte upload always reaches the submission call. -/
theorem c6_amended_only_missing_field_rejected :
    (∀ env : Env, env.fileProvided = false →
      (analyzeHandler env).response = some (.jsonErr 400) ∧
      (analyzeHandler env).submitted = false) ∧
    (∀ env : Env, env.fileProvided = true → env.origSize = 0 →
      (analyzeHandler env).submitted = true) := by
  constructor
  · intro env h
    unfold analyzeHandler
    rw [if_pos h]
    exact ⟨rfl, rfl⟩
  · intro env h h0
    rw [analyzeHandler_submitted env h]
    exact tryBlock_zero_size_submits env [env.origPath] h0

/-- C6, witness: with the file field missing the handler answers 400
without submitting, and a zero-byte upload (whatever the submission
outcome) does submit. -/
theorem c6_amended_witness :
    ((analyzeHandler { baseEnv with fileProvided := false }).response =
        some (.jsonErr 400) ∧
      (analyzeHandler { baseEnv with fileProvided := false }).submitted = false) ∧
    (analyzeHandler { baseEnv with origSize := 0 }).submitted = true :=
  ⟨c6_amended_only_missing_field_rejected.1 { baseEnv with fileProvided := false } rfl,
   c6_amended_only_missing_field_rejected.2 { baseEnv with origSize := 0 } rfl rfl⟩

/-! ## Claim C7 -/

/-- C7: an uploaded pdf above the soft threshold, when Ghostscript is
unavailable, makes the request fail with status 413 and no submission
request is ever issued to the remote service. -/
theorem c7_oversized_pdf_without_gs_rejected (env : Env)
    (h0 : env.fileProvided = true) (h1 : env.origSize > env.maxSizeBytes)
    (h2 : env.ext = ".pdf") (h3 : env.gs = false) :
    (analyzeHandler env).response = some (.jsonErr 413) ∧
    (analyzeHandler env).submitted = false := by
  have htb : tryBlock env [env.origPath] =
      ⟨some (.error (.withStatus 413)), [env.origPath], false, env.origPath, false⟩ := by
    unfold tryBlock
    dsimp only
    rw [if_pos h1, if_pos h2, if_pos h3]
  unfold analyzeHandler
  rw [if_neg (by simp [h0]), htb]
  exact ⟨rfl, rfl⟩

/-- C7, witness: a 20 MB pdf upload on a server without Ghostscript is
answered with 413 and nothing is submitted. -/
theorem c7_witness :
    (analyzeHandler { baseEnv with origSize := 20971520, gs := false }).response =
        some (.jsonErr 413) ∧
    (analyzeHandler { baseEnv with origSize := 20971520, gs := false }).submitted = false :=
  c7_oversized_pdf_without_gs_rejected { baseEnv with origSize := 20971520, gs := false }
    rfl (by decide) rfl rfl

end AzureOCR
